import Mathlib

/-!
Shallow embedding of the CSV ingestion and conversation-state logic of the
InsightAI dashboard (source files: App.tsx, types.ts, services/geminiService.ts).

JavaScript machine floats are modelled by exact rationals plus explicit NaN and
signed-infinity markers; float64 rounding and overflow of finite literals are
not modelled (no claim exercises them).  JavaScript objects used as row maps are
modelled as association lists built by an assignment operation that updates in
place or appends, so key insertion order and key presence are observable, as in
the source language.
-/

/-- Whitespace set used by the JavaScript trim and Number conversions
(space, tab, LF, CR, VT, FF, NBSP, BOM, and the line and paragraph
separators).  Exotic Unicode space separators are omitted; no claim uses them. -/
def jsIsWhitespace (c : Char) : Bool :=
  c = ' ' || c = '\t' || c = '\n' || c = '\r' || c = '\x0b' || c = '\x0c' ||
  c = '\u00A0' || c = '\uFEFF' || c = '\u2028' || c = '\u2029'

/-- Model of the JavaScript String.prototype.trim call. -/
def jsTrim (s : String) : String :=
  String.mk (((s.toList.dropWhile jsIsWhitespace).reverse.dropWhile jsIsWhitespace).reverse)

/-- Splitter for the regular expression of slash r question mark slash n used in
parseCSV: a line break is a bare LF or a CRLF pair; a lone CR is ordinary text. -/
def splitLinesAux : List Char → List Char → List String
  | [], acc => [String.mk acc.reverse]
  | '\r' :: '\n' :: rest, acc => String.mk acc.reverse :: splitLinesAux rest []
  | '\n' :: rest, acc => String.mk acc.reverse :: splitLinesAux rest []
  | c :: rest, acc => splitLinesAux rest (c :: acc)

/-- Model of the text split on line boundaries in parseCSV (App.tsx line 20). -/
def splitLines (s : String) : List String :=
  splitLinesAux s.toList []

/-- The non-blank lines kept by parseCSV (App.tsx line 20): split, then drop
lines that trim to the empty string. -/
def csvLines (text : String) : List String :=
  (splitLines text).filter (fun l => jsTrim l != "")

/-- Model of the edge-quote stripping regex replace in parseLine (App.tsx
lines 30 and 34): remove one leading double quote if present, then one
trailing double quote if still present. -/
def stripEdgeQuotes (s : String) : String :=
  let cs1 :=
    match s.toList with
    | '"' :: rest => rest
    | cs => cs
  match cs1.reverse with
  | '"' :: rest => String.mk rest.reverse
  | _ => String.mk cs1

/-- Finishing a raw field in parseLine: strip edge quotes, then trim. -/
def finishField (acc : List Char) : String :=
  jsTrim (stripEdgeQuotes (String.mk acc.reverse))

/-- Scanner of parseLine (App.tsx lines 23 to 36): walk the characters,
toggling the in-quotes flag on every double quote; a comma is a field
separator exactly when the flag is false after the toggle step. -/
def parseLineAux : List Char → Bool → List Char → List String
  | [], _, acc => [finishField acc]
  | c :: rest, inQ, acc =>
    let inQ2 := if c = '"' then !inQ else inQ
    if c = ',' && !inQ2 then
      finishField acc :: parseLineAux rest inQ2 []
    else
      parseLineAux rest inQ2 (c :: acc)

/-- Model of parseLine (App.tsx lines 23 to 36). -/
def parseLine (line : String) : List String :=
  parseLineAux line.toList false []

/-- Model of the global comma-removing regex replace (App.tsx lines 45 and 46). -/
def stripCommas (s : String) : String :=
  String.mk (s.toList.filter (fun c => c != ','))

/-- JavaScript number values as observed by the ingestor: NaN, a signed
infinity, or a finite value carried exactly as a rational. -/
inductive JSNum where
  | nan : JSNum
  | inf (neg : Bool) : JSNum
  | fin (q : ℚ) : JSNum
deriving DecidableEq

/-- Model of the isNaN test on a converted number. -/
def JSNum.isNaN : JSNum → Bool
  | .nan => true
  | _ => false

/-- Decimal digit test. -/
def isDecDigit (c : Char) : Bool :=
  '0' ≤ c && c ≤ '9'

/-- Value of one digit in a given base, if the character is such a digit. -/
def hexDigitVal (c : Char) : Option Nat :=
  if '0' ≤ c && c ≤ '9' then Option.some (c.toNat - '0'.toNat)
  else if 'a' ≤ c && c ≤ 'f' then Option.some (c.toNat - 'a'.toNat + 10)
  else if 'A' ≤ c && c ≤ 'F' then Option.some (c.toNat - 'A'.toNat + 10)
  else Option.none

/-- Octal digit value. -/
def octDigitVal (c : Char) : Option Nat :=
  if '0' ≤ c && c ≤ '7' then Option.some (c.toNat - '0'.toNat) else Option.none

/-- Binary digit value. -/
def binDigitVal (c : Char) : Option Nat :=
  if c = '0' || c = '1' then Option.some (c.toNat - '0'.toNat) else Option.none

/-- Accumulate a whole character list as digits of the given base; fail on the
empty list or on any non-digit. -/
def radixValueAux (digitVal : Char → Option Nat) (base : Nat) : List Char → Nat → Option Nat
  | [], acc => Option.some acc
  | c :: rest, acc =>
    match digitVal c with
    | Option.some d => radixValueAux digitVal base rest (acc * base + d)
    | Option.none => Option.none

/-- Whole-list radix parse requiring at least one digit. -/
def radixValue (digitVal : Char → Option Nat) (base : Nat) (cs : List Char) : Option Nat :=
  if cs.isEmpty then Option.none else radixValueAux digitVal base cs 0

/-- Split a character list into its longest decimal-digit prefix and the rest. -/
def takeDigits : List Char → List Char × List Char
  | [] => ([], [])
  | c :: rest =>
    if isDecDigit c then
      let p := takeDigits rest
      (c :: p.1, p.2)
    else ([], c :: rest)

/-- Value of a list of decimal digits. -/
def digitsToNat (ds : List Char) : Nat :=
  ds.foldl (fun acc c => acc * 10 + (c.toNat - '0'.toNat)) 0

/-- Parse the optional exponent part of a decimal literal; the whole remaining
input must be consumed. -/
def parseExponent : List Char → Option ℤ
  | [] => Option.some 0
  | c :: rest =>
    if c = 'e' || c = 'E' then
      match rest with
      | '+' :: ds =>
        if !ds.isEmpty && ds.all isDecDigit then Option.some (digitsToNat ds) else Option.none
      | '-' :: ds =>
        if !ds.isEmpty && ds.all isDecDigit then Option.some (-(digitsToNat ds : ℤ)) else Option.none
      | ds =>
        if !ds.isEmpty && ds.all isDecDigit then Option.some (digitsToNat ds) else Option.none
    else Option.none

/-- Exact rational value of a decimal literal with integer-part digits ip,
fraction digits fp and decimal exponent e: the integer mantissa read from the
concatenated digits, scaled by ten to the adjusted exponent.  Built with
Rat.divInt on integer arithmetic so that the kernel can evaluate it. -/
def decValue (ip fp : List Char) (e : ℤ) : ℚ :=
  let mant : ℤ := (digitsToNat ip * 10 ^ fp.length + digitsToNat fp : ℕ)
  if 0 ≤ e - (fp.length : ℤ) then Rat.divInt (mant * 10 ^ (e - (fp.length : ℤ)).toNat) 1
  else Rat.divInt mant (10 ^ ((fp.length : ℤ) - e).toNat)

/-- Parse an unsigned decimal literal (digits, optional fraction, optional
exponent, or fraction-only form); the whole input must be consumed. -/
def parseUnsignedDec (cs : List Char) : Option ℚ :=
  let ip := takeDigits cs
  match ip.2 with
  | '.' :: rest2 =>
    let fp := takeDigits rest2
    if ip.1.isEmpty && fp.1.isEmpty then Option.none
    else
      match parseExponent fp.2 with
      | Option.some e => Option.some (decValue ip.1 fp.1 e)
      | Option.none => Option.none
  | rest =>
    if ip.1.isEmpty then Option.none
    else
      match parseExponent rest with
      | Option.some e => Option.some (decValue ip.1 [] e)
      | Option.none => Option.none

/-- Body of a signed decimal literal: the Infinity keyword or an unsigned
decimal literal, with the sign already consumed. -/
def parseDecBody (cs : List Char) (neg : Bool) : Option JSNum :=
  if cs = ['I', 'n', 'f', 'i', 'n', 'i', 't', 'y'] then Option.some (JSNum.inf neg)
  else
    match parseUnsignedDec cs with
    | Option.some q => Option.some (JSNum.fin (if neg then -q else q))
    | Option.none => Option.none

/-- Signed decimal literal. -/
def parseSignedDec : List Char → Option JSNum
  | '+' :: rest => parseDecBody rest false
  | '-' :: rest => parseDecBody rest true
  | cs => parseDecBody cs false

/-- A full string numeric literal: a hex, octal or binary literal (no sign
allowed), or a signed decimal literal. -/
def parseNumericLiteral (cs : List Char) : Option JSNum :=
  match cs with
  | '0' :: x :: rest =>
    if x = 'x' || x = 'X' then (radixValue hexDigitVal 16 rest).map (fun n => JSNum.fin n)
    else if x = 'o' || x = 'O' then (radixValue octDigitVal 8 rest).map (fun n => JSNum.fin n)
    else if x = 'b' || x = 'B' then (radixValue binDigitVal 2 rest).map (fun n => JSNum.fin n)
    else parseSignedDec cs
  | cs => parseSignedDec cs

/-- Model of the JavaScript Number conversion applied to a string: trim the
whitespace, convert the empty remainder to zero, otherwise parse a complete
numeric literal or yield NaN.  Finite values are kept exact. -/
def jsNumber (s : String) : JSNum :=
  let cs := (jsTrim s).toList
  if cs.isEmpty then JSNum.fin 0
  else
    match parseNumericLiteral cs with
    | Option.some n => n
    | Option.none => JSNum.nan

/-- A value stored in a row object: the undefined value, a number, or a string
(null never occurs in the ingestor). -/
inductive JSValue where
  | undef : JSValue
  | num (n : JSNum) : JSValue
  | str (s : String) : JSValue
deriving DecidableEq

/-- The value assigned for one header cell in parseCSV (App.tsx lines 43 to
49): when the positional field exists, is non-empty, and its comma-stripped
form converts to a non-NaN number, store that number; otherwise store the
field itself, which is the undefined value when the field is missing. -/
def cellValue : Option String → JSValue
  | Option.none => JSValue.undef
  | Option.some v =>
    if v ≠ "" ∧ (jsNumber (stripCommas v)).isNaN = false then
      JSValue.num (jsNumber (stripCommas v))
    else JSValue.str v

/-- A row object: association list with assignment semantics. -/
abbrev Row := List (String × JSValue)

/-- Model of a JavaScript property assignment on a row object: update the
existing entry in place, or append a new one. -/
def setKey : Row → String → JSValue → Row
  | [], k, v => [(k, v)]
  | (k1, v1) :: rest, k, v =>
    if k1 = k then (k, v) :: rest else (k1, v1) :: setKey rest k v

/-- Model of a JavaScript property read on a row object. -/
def rowGet : Row → String → Option JSValue
  | [], _ => Option.none
  | (k1, v1) :: rest, k => if k1 = k then Option.some v1 else rowGet rest k

/-- Key-presence test on a row object (as by Object.keys membership). -/
def rowHasKey : Row → String → Bool
  | [], _ => false
  | (k1, _) :: rest, k => k1 = k || rowHasKey rest k

/-- The forEach loop of parseCSV over the headers with index (App.tsx
lines 42 to 50), threading the row object. -/
def buildRowAux (values : List String) : List String → Nat → Row → Row
  | [], _, obj => obj
  | h :: hs, i, obj => buildRowAux values hs (i + 1) (setKey obj h (cellValue values[i]?))

/-- Row construction of parseCSV for one data line, given the headers. -/
def buildRow (headers values : List String) : Row :=
  buildRowAux values headers 0 []

/-- Model of parseCSV (App.tsx lines 19 to 55): keep the non-blank lines,
parse the first as the headers, and build one row object per remaining line. -/
def parseCSV (text : String) : List String × List Row :=
  match csvLines text with
  | [] => ([], [])
  | first :: rest =>
    (parseLine first, rest.map (fun line => buildRow (parseLine first) (parseLine line)))

/-- String form of a number as interpolated by a template literal.  Integral
values render exactly as in JavaScript; the non-integral branch is a stand-in
(JavaScript shortest-round-trip float formatting is not modelled and no claim
exercises it). -/
def jsNumToString : JSNum → String
  | JSNum.nan => "NaN"
  | JSNum.inf neg => if neg then "-Infinity" else "Infinity"
  | JSNum.fin q => if q.den = 1 then toString q.num else toString q.num ++ "/" ++ toString q.den

/-- Rendering of one cell in downloadCSV (App.tsx line 208): a missing or
undefined value renders as the empty string, otherwise the value is
interpolated. -/
def displayValue : Option JSValue → String
  | Option.some (JSValue.str s) => s
  | Option.some (JSValue.num n) => jsNumToString n
  | Option.some JSValue.undef => ""
  | Option.none => ""

/-- Model of the CSV payload built by downloadCSV (App.tsx lines 205 to 216):
the columns joined by commas, then each row as its column-ordered values, each
wrapped in double quotes and joined by commas, all joined by newlines. -/
def exportCSV (columns : List String) (data : List Row) : String :=
  String.intercalate "\n"
    (String.intercalate "," columns ::
      data.map (fun row =>
        String.intercalate "," (columns.map (fun col => "\"" ++ displayValue (rowGet row col) ++ "\""))))

/-- Message roles (types.ts). -/
inductive Role where
  | user : Role
  | assistant : Role
deriving DecidableEq

/-- Chart kinds of an analysis result (types.ts). -/
inductive ChartType where
  | bar : ChartType
  | line : ChartType
  | pie : ChartType
  | scatter : ChartType
  | none : ChartType
deriving DecidableEq

/-- One chart data point as constrained by the response schema in
geminiService: optional name and value for bar, line and pie charts,
optional x and y for scatter charts. -/
structure ChartPoint where
  name : Option String
  value : Option JSNum
  x : Option JSNum
  y : Option JSNum
deriving DecidableEq

/-- Structured analysis result (AIResponse in types.ts). -/
structure AIResponse where
  summary : String
  insight : String
  chartType : ChartType
  chartData : List ChartPoint
  xAxisLabel : Option String
  yAxisLabel : Option String
  suggestion : Option String
deriving DecidableEq

/-- One conversation exchange (Message in types.ts).  The Date timestamp is
modelled as an abstract tick; message ids are derived from the tick exactly as
the source derives them from the current time. -/
structure Message where
  id : String
  role : Role
  content : String
  response : Option AIResponse
  timestamp : Nat
deriving DecidableEq

/-- Ingested dataset (Dataset in types.ts). -/
structure Dataset where
  id : String
  name : String
  columns : List String
  data : List Row
deriving DecidableEq

/-- The mutable application state touched by the claims: the dataset, the
message list, the input box, the loading flag, and the set of message ids for
which a chart ref handle exists (the handles themselves are opaque). -/
structure AppState where
  dataset : Option Dataset
  messages : List Message
  input : String
  loading : Bool
  chartRefs : List String
deriving DecidableEq

/-- Model of the query resolution in handleSendMessage (App.tsx line 169):
textOverride or input, where the or is the JavaScript one, so an absent or
empty override falls back to the input box. -/
def resolveQuery (textOverride : Option String) (input : String) : String :=
  match textOverride with
  | Option.some t => if t = "" then input else t
  | Option.none => input

/-- The history projection sent to the analysis call (App.tsx line 178). -/
def projectHistory (msgs : List Message) : List (Role × String) :=
  msgs.map (fun m => (m.role, m.content))

/-- The optimistic user message appended by handleSendMessage (App.tsx
line 172). -/
def userExchange (q : String) (now : Nat) : Message :=
  { id := toString now, role := Role.user, content := q,
    response := Option.none, timestamp := now }

/-- The assistant message appended on analysis success (App.tsx lines 181 to
187): its content is the insight field and it carries the result. -/
def assistantExchange (r : AIResponse) (now : Nat) : Message :=
  { id := toString (now + 1), role := Role.assistant, content := r.insight,
    response := Option.some r, timestamp := now }

/-- The assistant message appended on analysis failure (App.tsx line 191):
its content is the error message and it carries no result. -/
def errorExchange (msg : String) (now : Nat) : Message :=
  { id := toString (now + 1), role := Role.assistant, content := msg,
    response := Option.none, timestamp := now }

/-- Synchronous prefix of handleSendMessage (App.tsx lines 168 to 178), up to
the suspension on the analysis call: when the resolved query trims to empty,
no dataset is loaded, or a submission is in flight, the state is untouched and
no call is made; otherwise the user message is appended, the input box is
cleared, the loading flag is set, and the query together with the projection
of the prior messages is handed to the analysis collaborator. -/
def sendStart (s : AppState) (textOverride : Option String) (now : Nat) :
    AppState × Option (String × List (Role × String)) :=
  if jsTrim (resolveQuery textOverride s.input) = "" ∨ s.dataset = Option.none ∨ s.loading = true then
    (s, Option.none)
  else
    ({ s with
        messages := s.messages ++ [userExchange (resolveQuery textOverride s.input) now],
        input := "",
        loading := true },
     Option.some (resolveQuery textOverride s.input, projectHistory s.messages))

/-- Resumption of handleSendMessage after the analysis call settles (App.tsx
lines 179 to 195): on success append the assistant message carrying the
result, with its content set to the insight field; on failure append an
assistant message carrying no result whose content is the error message; in
both cases the finally block clears the loading flag. -/
def sendResolve (s : AppState) (outcome : Except String AIResponse) (now : Nat) : AppState :=
  match outcome with
  | Except.ok response =>
    { s with messages := s.messages ++ [assistantExchange response now], loading := false }
  | Except.error msg =>
    { s with messages := s.messages ++ [errorExchange msg now], loading := false }

/-- Error message produced by the catch block of analyzeData in geminiService:
the raw message when truthy, otherwise the fixed fallback text.  A raw message
that is absent or empty is modelled as the empty string. -/
def analyzeDataErrMsg (raw : String) : String :=
  if raw = "" then
    "InsightAI is having trouble processing this request. Please try a different question."
  else raw

/-- Model of the reader callback in handleFileUpload (App.tsx lines 154 to
163): parse the text; when no columns are detected the thrown error is caught
and the state is untouched; otherwise the dataset is replaced wholesale.  The
messages and the chart ref map are not touched on either path. -/
def handleFileUpload (s : AppState) (fileName : String) (text : String) (did : String) : AppState :=
  if (parseCSV text).1.length = 0 then s
  else
    { s with
        dataset := Option.some
          { id := did, name := fileName,
            columns := (parseCSV text).1, data := (parseCSV text).2 } }

/-- Model of clearChat (App.tsx lines 198 to 201): empty the message list and
drop every chart ref handle. -/
def clearChat (s : AppState) : AppState :=
  { s with messages := [], chartRefs := [] }

/-- Reading back the key just assigned yields the assigned value. -/
theorem rowGet_setKey_same (m : Row) (k : String) (v : JSValue) :
    rowGet (setKey m k v) k = Option.some v := by
  induction m with
  | nil => simp [setKey, rowGet]
  | cons p rest ih =>
    obtain ⟨k1, v1⟩ := p
    by_cases h : k1 = k
    · simp [setKey, h, rowGet]
    · simp [setKey, h, rowGet, ih]

/-- Assignment does not disturb reads of other keys. -/
theorem rowGet_setKey_ne (m : Row) (k k2 : String) (v : JSValue) (h : k2 ≠ k) :
    rowGet (setKey m k v) k2 = rowGet m k2 := by
  induction m with
  | nil => simp [setKey, rowGet, Ne.symm h]
  | cons p rest ih =>
    obtain ⟨k1, v1⟩ := p
    by_cases h1 : k1 = k
    · subst h1
      simp [setKey, rowGet, Ne.symm h]
    · simp [setKey, h1, rowGet, ih]

/-- Assignment makes the assigned key present. -/
theorem rowHasKey_setKey_same (m : Row) (k : String) (v : JSValue) :
    rowHasKey (setKey m k v) k = true := by
  induction m with
  | nil => simp [setKey, rowHasKey]
  | cons p rest ih =>
    obtain ⟨k1, v1⟩ := p
    by_cases h : k1 = k
    · simp [setKey, h, rowHasKey]
    · simp [setKey, h, rowHasKey, ih]

/-- A key present after an assignment is the assigned key or was already
present. -/
theorem rowHasKey_setKey_elim (m : Row) (k k2 : String) (v : JSValue)
    (h : rowHasKey (setKey m k v) k2 = true) : k2 = k ∨ rowHasKey m k2 = true := by
  induction m with
  | nil =>
    simp [setKey, rowHasKey] at h
    exact Or.inl h.symm
  | cons p rest ih =>
    obtain ⟨k1, v1⟩ := p
    by_cases h1 : k1 = k
    · subst h1
      simp [setKey, rowHasKey] at h
      rcases h with h | h
      · exact Or.inl h.symm
      · exact Or.inr (by simp [rowHasKey, h])
    · simp [setKey, h1, rowHasKey] at h
      rcases h with h | h
      · exact Or.inr (by simp [rowHasKey, h])
      · rcases ih h with h2 | h2
        · exact Or.inl h2
        · exact Or.inr (by simp [rowHasKey, h2])

/-- Keys already present stay present across an assignment. -/
theorem rowHasKey_setKey_mono (m : Row) (k k2 : String) (v : JSValue)
    (h : rowHasKey m k2 = true) : rowHasKey (setKey m k v) k2 = true := by
  induction m with
  | nil => simp [rowHasKey] at h
  | cons p rest ih =>
    obtain ⟨k1, v1⟩ := p
    simp [rowHasKey] at h
    by_cases h1 : k1 = k
    · subst h1
      rcases h with h | h
      · simp [setKey, rowHasKey, h]
      · simp [setKey, rowHasKey, h]
    · rcases h with h | h
      · simp only [setKey, if_neg h1, rowHasKey]
        simp [h]
      · simp [setKey, h1, rowHasKey, ih h]

/-- The header loop never touches keys outside the remaining headers. -/
theorem buildRowAux_get_notmem (values hs : List String) (n : Nat) (obj : Row)
    (k : String) (h : k ∉ hs) :
    rowGet (buildRowAux values hs n obj) k = rowGet obj k := by
  induction hs generalizing n obj with
  | nil => rfl
  | cons h1 t ih =>
    have hne : k ≠ h1 := fun hk => h (hk ▸ List.mem_cons_self h1 t)
    have hnt : k ∉ t := fun hk => h (List.mem_cons_of_mem h1 hk)
    show rowGet (buildRowAux values t (n + 1) (setKey obj h1 (cellValue values[n]?))) k = rowGet obj k
    rw [ih (n + 1) _ hnt, rowGet_setKey_ne obj h1 k _ hne]

/-- With duplicate-free headers, the header at index i is bound to the cell
value of the positional field at that offset. -/
theorem buildRowAux_get (values hs : List String) (n : Nat) (obj : Row)
    (hnd : hs.Nodup) (i : Nat) (hi : i < hs.length) :
    rowGet (buildRowAux values hs n obj) (hs.get ⟨i, hi⟩) =
      Option.some (cellValue values[n + i]?) := by
  induction hs generalizing n obj i with
  | nil => simp at hi
  | cons h1 t ih =>
    cases i with
    | zero =>
      have hnotmem : h1 ∉ t := (List.nodup_cons.mp hnd).1
      show rowGet (buildRowAux values t (n + 1) (setKey obj h1 (cellValue values[n]?))) h1 = _
      rw [buildRowAux_get_notmem values t (n + 1) _ h1 hnotmem, rowGet_setKey_same]
      rfl
    | succ j =>
      have hnd2 : t.Nodup := (List.nodup_cons.mp hnd).2
      have hj : j < t.length := by simpa using hi
      show rowGet (buildRowAux values t (n + 1) (setKey obj h1 (cellValue values[n]?)))
          (t.get ⟨j, hj⟩) = _
      rw [ih (n + 1) _ hnd2 j hj]
      have harith : n + 1 + j = n + (j + 1) := by omega
      rw [harith]

/-- Keys present before the header loop stay present after it. -/
theorem buildRowAux_hasKey_mono (values hs : List String) (n : Nat) (obj : Row)
    (k : String) (h : rowHasKey obj k = true) :
    rowHasKey (buildRowAux values hs n obj) k = true := by
  induction hs generalizing n obj with
  | nil => exact h
  | cons h1 t ih => exact ih (n + 1) _ (rowHasKey_setKey_mono _ h1 k _ h)

/-- Every remaining header becomes a present key. -/
theorem buildRowAux_hasKey_mem (values hs : List String) (n : Nat) (obj : Row)
    (k : String) (h : k ∈ hs) :
    rowHasKey (buildRowAux values hs n obj) k = true := by
  induction hs generalizing n obj with
  | nil => simp at h
  | cons h1 t ih =>
    by_cases hk : k ∈ t
    · exact ih (n + 1) _ hk
    · have hk1 : k = h1 := by
        rcases List.mem_cons.mp h with h2 | h2
        · exact h2
        · exact absurd h2 hk
      subst hk1
      exact buildRowAux_hasKey_mono values t (n + 1) _ k (rowHasKey_setKey_same obj k _)

/-- Every key present after the header loop comes from the headers or was
already present before the loop. -/
theorem buildRowAux_hasKey_sub (values hs : List String) (n : Nat) (obj : Row)
    (k : String) (h : rowHasKey (buildRowAux values hs n obj) k = true) :
    k ∈ hs ∨ rowHasKey obj k = true := by
  induction hs generalizing n obj with
  | nil => exact Or.inr h
  | cons h1 t ih =>
    rcases ih (n + 1) _ h with hmem | hobj
    · exact Or.inl (List.mem_cons_of_mem h1 hmem)
    · rcases rowHasKey_setKey_elim obj h1 k _ hobj with h2 | h2
      · exact Or.inl (h2 ▸ List.mem_cons_self h1 t)
      · exact Or.inr h2

/-- Unfolding of parseCSV when at least one non-blank line exists. -/
theorem parseCSV_eq (text : String) (first : String) (rest : List String)
    (h : csvLines text = first :: rest) :
    parseCSV text =
      (parseLine first, rest.map (fun line => buildRow (parseLine first) (parseLine line))) := by
  unfold parseCSV
  rw [h]

/-- Claim C7: the field splitter treats a comma as a separator only outside
quotes, so the line holding a quoted field with an inner comma followed by 2
splits into exactly the two fields a,b and 2, with the edge quotes stripped. -/
theorem claim7_quoted_comma :
    parseLine "\"a,b\",2" = ["a,b", "2"] := by
  decide

/-- Claim C9: a digits-with-comma-separators field such as 1,234 (quoted so
the ingestor sees it as one field) coerces to the number 1234, and an empty
field stays the empty string, never the number 0. -/
theorem claim9_separators_and_empty :
    (parseCSV "h\n\"1,234\"").2 = [[("h", JSValue.num (JSNum.fin 1234))]] ∧
    (parseCSV "a,b\n,x").2 = [[("a", JSValue.str ""), ("b", JSValue.str "x")]] ∧
    (parseCSV "a,b\n,x").2 ≠ [[("a", JSValue.num (JSNum.fin 0)), ("b", JSValue.str "x")]] := by
  decide

/-- Claim C5: ingesting the two-row sample yields the stated columns and
typed rows, and re-ingesting the re-exported CSV yields the same rows. -/
theorem claim5_roundtrip :
    parseCSV "name,score\nAlice,10\nBob,20\n" =
      (["name", "score"],
       [[("name", JSValue.str "Alice"), ("score", JSValue.num (JSNum.fin 10))],
        [("name", JSValue.str "Bob"), ("score", JSValue.num (JSNum.fin 20))]]) ∧
    (parseCSV (exportCSV ["name", "score"]
        [[("name", JSValue.str "Alice"), ("score", JSValue.num (JSNum.fin 10))],
         [("name", JSValue.str "Bob"), ("score", JSValue.num (JSNum.fin 20))]])).2 =
      [[("name", JSValue.str "Alice"), ("score", JSValue.num (JSNum.fin 10))],
       [("name", JSValue.str "Bob"), ("score", JSValue.num (JSNum.fin 20))]] := by
  decide

/-- Claim C1 is false on the code: for the input whose data line has fewer
fields than headers, the column beyond the field count IS present as a key,
and its value is the undefined value. -/
theorem claim1_counterexample :
    (parseCSV "a,b\nc").2 = [[("a", JSValue.str "c"), ("b", JSValue.undef)]] ∧
    rowHasKey [("a", JSValue.str "c"), ("b", JSValue.undef)] "b" = true ∧
    rowGet [("a", JSValue.str "c"), ("b", JSValue.undef)] "b" = Option.some JSValue.undef := by
  decide

/-- Claim C1 as amended: with duplicate-free headers, every header is present
as a key of the built row, and the value stored under the header at index i is
the cell value of the positional field there, which is the undefined value
exactly when the line has no field at that index (columns beyond the field
count are present as keys mapped to undefined, not absent). -/
theorem claim1_amended (headers values : List String) (i : Nat)
    (hi : i < headers.length) (hnd : headers.Nodup) :
    rowHasKey (buildRow headers values) (headers.get ⟨i, hi⟩) = true ∧
    rowGet (buildRow headers values) (headers.get ⟨i, hi⟩) =
      Option.some (cellValue values[i]?) := by
  constructor
  · exact buildRowAux_hasKey_mem values headers 0 [] _ (List.get_mem headers i hi)
  · have h := buildRowAux_get values headers 0 [] hnd i hi
    rwa [Nat.zero_add] at h

/-- Witness for the amended claim C1 at a concrete short row. -/
theorem claim1_witness :
    rowHasKey (buildRow ["a", "b"] ["x"]) (["a", "b"].get ⟨1, by decide⟩) = true ∧
    rowGet (buildRow ["a", "b"] ["x"]) (["a", "b"].get ⟨1, by decide⟩) =
      Option.some (cellValue (["x"] : List String)[1]?) :=
  claim1_amended ["a", "b"] ["x"] 1 (by decide) (by decide)

/-- Claim C2 is false on the code: the quoted single-comma field is non-empty
before separator stripping but empty after it, yet it is coerced to the
number 0 rather than kept as the trimmed string; likewise the field Infinity
converts to a non-finite number, yet it is coerced rather than kept as a
string. -/
theorem claim2_counterexample :
    (parseCSV "h\n\",\"").2 = [[("h", JSValue.num (JSNum.fin 0))]] ∧
    stripCommas "," = "" ∧
    (parseCSV "h\nInfinity").2 = [[("h", JSValue.num (JSNum.inf false))]] := by
  decide

/-- Claim C2 as amended: a present field is coerced to a number exactly when
the original trimmed field is non-empty (before separator stripping) and its
comma-stripped form converts to a non-NaN number (possibly 0 when stripping
leaves the empty string, possibly an infinity); in every other case the row
value is the original trimmed field string. -/
theorem claim2_amended (v : String) :
    ((∃ n, cellValue (Option.some v) = JSValue.num n) ↔
      (v ≠ "" ∧ (jsNumber (stripCommas v)).isNaN = false)) ∧
    ((v = "" ∨ (jsNumber (stripCommas v)).isNaN = true) →
      cellValue (Option.some v) = JSValue.str v) := by
  by_cases h : v ≠ "" ∧ (jsNumber (stripCommas v)).isNaN = false
  · constructor
    · simp [cellValue, h]
    · intro hcon
      rcases h with ⟨h1, h2⟩
      rcases hcon with h3 | h3
      · exact absurd h3 h1
      · rw [h2] at h3
        exact absurd h3 (by decide)
  · constructor
    · constructor
      · intro hex
        rcases hex with ⟨n, hn⟩
        rw [cellValue, if_neg h] at hn
        exact absurd hn (by simp)
      · intro hrhs
        exact absurd hrhs h
    · intro _
      rw [cellValue, if_neg h]

/-- Witness for the amended claim C2 at a concrete non-numeric field. -/
theorem claim2_witness :
    ((∃ n, cellValue (Option.some "abc") = JSValue.num n) ↔
      ("abc" ≠ "" ∧ (jsNumber (stripCommas "abc")).isNaN = false)) ∧
    (("abc" = "" ∨ (jsNumber (stripCommas "abc")).isNaN = true) →
      cellValue (Option.some "abc") = JSValue.str "abc") :=
  claim2_amended "abc"

/-- Claim C6: for CSV text with at least one non-blank line, the returned
headers are the field split of the first non-blank line (so the lengths
agree), and every key of every returned row is one of the headers. -/
theorem claim6_headers_and_keys (text : String) (first : String) (rest : List String)
    (h : csvLines text = first :: rest) :
    (parseCSV text).1.length = (parseLine first).length ∧
    ∀ row ∈ (parseCSV text).2, ∀ k, rowHasKey row k = true → k ∈ (parseCSV text).1 := by
  rw [parseCSV_eq text first rest h]
  refine ⟨rfl, ?_⟩
  intro row hrow k hk
  simp only [List.mem_map] at hrow
  obtain ⟨line, hline, hr⟩ := hrow
  rw [← hr] at hk
  rcases buildRowAux_hasKey_sub (parseLine line) (parseLine first) 0 [] k hk with hm | hobj
  · exact hm
  · simp [rowHasKey] at hobj

/-- Witness for claim C6 at a concrete two-line input. -/
theorem claim6_witness :
    (parseCSV "a,b\n1,2").1.length = (parseLine "a,b").length ∧
    ∀ row ∈ (parseCSV "a,b\n1,2").2, ∀ k, rowHasKey row k = true →
      k ∈ (parseCSV "a,b\n1,2").1 :=
  claim6_headers_and_keys "a,b\n1,2" "a,b" ["1,2"] (by decide)


/-- Characterization of an accepted submission: the call arguments are the
resolved query and the projection of the prior messages, and the new state
appends exactly the optimistic user message, clears the input box and raises
the loading flag. -/
theorem sendStart_accept (s : AppState) (t : Option String) (now : Nat) (q : String)
    (hist : List (Role × String))
    (hacc : (sendStart s t now).2 = Option.some (q, hist)) :
    q = resolveQuery t s.input ∧ hist = projectHistory s.messages ∧
    (sendStart s t now).1 =
      { s with messages := s.messages ++ [userExchange q now], input := "", loading := true } := by
  by_cases hc : jsTrim (resolveQuery t s.input) = "" ∨ s.dataset = Option.none ∨ s.loading = true
  · unfold sendStart at hacc
    rw [if_pos hc] at hacc
    simp at hacc
  · unfold sendStart at hacc
    rw [if_neg hc] at hacc
    simp only [Option.some.injEq, Prod.mk.injEq] at hacc
    obtain ⟨hq, hh⟩ := hacc
    subst hq
    subst hh
    refine ⟨rfl, rfl, ?_⟩
    unfold sendStart
    rw [if_neg hc]

/-- Sample dataset for the witness instances. -/
def sampleDataset : Dataset :=
  { id := "d1", name := "data.csv", columns := ["h"], data := [] }

/-- A fresh state with a loaded dataset, an empty conversation and a pending
input text. -/
def sampleState : AppState :=
  { dataset := Option.some sampleDataset, messages := [], input := "hi",
    loading := false, chartRefs := [] }

/-- The sample state with the loading flag raised (a submission in flight). -/
def sampleStateLoading : AppState :=
  { dataset := Option.some sampleDataset, messages := [], input := "hi",
    loading := true, chartRefs := [] }

/-- A sample analysis result. -/
def sampleResponse : AIResponse :=
  { summary := "s", insight := "i", chartType := ChartType.none, chartData := [],
    xAxisLabel := Option.none, yAxisLabel := Option.none, suggestion := Option.none }

/-- A sample prior exchange. -/
def sampleMessage : Message :=
  { id := "0", role := Role.user, content := "hello", response := Option.none, timestamp := 0 }

/-- A state with one prior exchange, a chart handle for it, and a pending
input text. -/
def sampleState2 : AppState :=
  { dataset := Option.some sampleDataset, messages := [sampleMessage], input := "next",
    loading := false, chartRefs := ["0"] }

/-- Claim C4: when a submission is in flight, the resolved query trims to
blank, or no dataset is loaded, a submission attempt leaves the whole state
unchanged and makes no analysis call (nothing is queued). -/
theorem claim4_single_flight (s : AppState) (t : Option String) (now : Nat)
    (h : jsTrim (resolveQuery t s.input) = "" ∨ s.dataset = Option.none ∨ s.loading = true) :
    sendStart s t now = (s, Option.none) := by
  unfold sendStart
  rw [if_pos h]

/-- Witness for claim C4: a second submission while one is pending is a
no-op. -/
theorem claim4_witness :
    sendStart sampleStateLoading Option.none 7 = (sampleStateLoading, Option.none) :=
  claim4_single_flight sampleStateLoading Option.none 7 (Or.inr (Or.inr rfl))

/-- Claim C3: for an accepted submission, the success resumption appends
exactly the user exchange and then the assistant exchange carrying the result
with content equal to its insight field, and the failure resumption appends
exactly the user exchange and then an assistant exchange carrying no result
whose content is the non-empty wrapped error message; in both cases the
in-flight flag ends cleared. -/
theorem claim3_success_failure (s : AppState) (t : Option String) (n1 n2 : Nat)
    (q : String) (hist : List (Role × String)) (r : AIResponse) (raw : String)
    (hacc : (sendStart s t n1).2 = Option.some (q, hist)) :
    (sendResolve (sendStart s t n1).1 (Except.ok r) n2).messages =
      s.messages ++ [userExchange q n1, assistantExchange r n2] ∧
    (userExchange q n1).role = Role.user ∧
    (assistantExchange r n2).role = Role.assistant ∧
    (assistantExchange r n2).response = Option.some r ∧
    (assistantExchange r n2).content = r.insight ∧
    (sendResolve (sendStart s t n1).1 (Except.ok r) n2).loading = false ∧
    (sendResolve (sendStart s t n1).1 (Except.error (analyzeDataErrMsg raw)) n2).messages =
      s.messages ++ [userExchange q n1, errorExchange (analyzeDataErrMsg raw) n2] ∧
    (errorExchange (analyzeDataErrMsg raw) n2).response = Option.none ∧
    (errorExchange (analyzeDataErrMsg raw) n2).content ≠ "" ∧
    (sendResolve (sendStart s t n1).1 (Except.error (analyzeDataErrMsg raw)) n2).loading = false := by
  obtain ⟨hq, hh, hs1⟩ := sendStart_accept s t n1 q hist hacc
  rw [hs1]
  refine ⟨?_, rfl, rfl, rfl, rfl, rfl, ?_, rfl, ?_, rfl⟩
  · simp [sendResolve]
  · simp [sendResolve]
  · show analyzeDataErrMsg raw ≠ ""
    by_cases hr : raw = ""
    · unfold analyzeDataErrMsg
      rw [if_pos hr]
      decide
    · unfold analyzeDataErrMsg
      rw [if_neg hr]
      exact hr

/-- Witness for claim C3 at a concrete accepted submission, with both a
success outcome and a failure outcome whose raw message is empty. -/
theorem claim3_witness :
    (sendResolve (sendStart sampleState Option.none 1).1 (Except.ok sampleResponse) 2).messages =
      sampleState.messages ++ [userExchange "hi" 1, assistantExchange sampleResponse 2] ∧
    (userExchange "hi" 1).role = Role.user ∧
    (assistantExchange sampleResponse 2).role = Role.assistant ∧
    (assistantExchange sampleResponse 2).response = Option.some sampleResponse ∧
    (assistantExchange sampleResponse 2).content = sampleResponse.insight ∧
    (sendResolve (sendStart sampleState Option.none 1).1
      (Except.ok sampleResponse) 2).loading = false ∧
    (sendResolve (sendStart sampleState Option.none 1).1
        (Except.error (analyzeDataErrMsg "")) 2).messages =
      sampleState.messages ++ [userExchange "hi" 1, errorExchange (analyzeDataErrMsg "") 2] ∧
    (errorExchange (analyzeDataErrMsg "") 2).response = Option.none ∧
    (errorExchange (analyzeDataErrMsg "") 2).content ≠ "" ∧
    (sendResolve (sendStart sampleState Option.none 1).1
      (Except.error (analyzeDataErrMsg "")) 2).loading = false :=
  claim3_success_failure sampleState Option.none 1 2 "hi" [] sampleResponse "" (by decide)

/-- Claim C8: the history handed to the analysis call of an accepted
submission is exactly the prior exchange sequence projected, in order, to
role and content pairs; its length equals the prior sequence length, while
the state after acceptance holds one more message (the new user exchange is
not part of the projection). -/
theorem claim8_history_projection (s : AppState) (t : Option String) (now : Nat)
    (q : String) (hist : List (Role × String))
    (hacc : (sendStart s t now).2 = Option.some (q, hist)) :
    hist = projectHistory s.messages ∧
    hist.length = s.messages.length ∧
    (sendStart s t now).1.messages.length = s.messages.length + 1 := by
  obtain ⟨hq, hh, hs1⟩ := sendStart_accept s t now q hist hacc
  subst hh
  refine ⟨rfl, ?_, ?_⟩
  · simp [projectHistory]
  · rw [hs1]
    simp

/-- Witness for claim C8 at a state with one prior exchange. -/
theorem claim8_witness :
    [(Role.user, "hello")] = projectHistory sampleState2.messages ∧
    ([(Role.user, "hello")] : List (Role × String)).length = sampleState2.messages.length ∧
    (sendStart sampleState2 Option.none 1).1.messages.length =
      sampleState2.messages.length + 1 :=
  claim8_history_projection sampleState2 Option.none 1 "next" [(Role.user, "hello")] (by decide)

/-- Claim C10: uploading a new CSV file leaves the exchange sequence and the
chart-handle map unchanged on both the success and the zero-headers path, the
next accepted submission still replays the pre-upload history projection, and
the explicit reset action is what empties both. -/
theorem claim10_upload_frame (s : AppState) (fileName text did : String) (t : Option String)
    (now : Nat) (q : String) (hist : List (Role × String))
    (hacc : (sendStart (handleFileUpload s fileName text did) t now).2 =
      Option.some (q, hist)) :
    (handleFileUpload s fileName text did).messages = s.messages ∧
    (handleFileUpload s fileName text did).chartRefs = s.chartRefs ∧
    hist = projectHistory s.messages ∧
    (clearChat (handleFileUpload s fileName text did)).messages = [] ∧
    (clearChat (handleFileUpload s fileName text did)).chartRefs = [] := by
  have hm : (handleFileUpload s fileName text did).messages = s.messages := by
    unfold handleFileUpload
    split
    · rfl
    · rfl
  have hcr : (handleFileUpload s fileName text did).chartRefs = s.chartRefs := by
    unfold handleFileUpload
    split
    · rfl
    · rfl
  obtain ⟨hq, hh, hs1⟩ := sendStart_accept _ t now q hist hacc
  refine ⟨hm, hcr, ?_, rfl, rfl⟩
  rw [hh, hm]

/-- Witness for claim C10: upload a one-column CSV over a state with one
prior exchange and a chart handle, then submit. -/
theorem claim10_witness :
    (handleFileUpload sampleState2 "f.csv" "h\n1" "d2").messages = sampleState2.messages ∧
    (handleFileUpload sampleState2 "f.csv" "h\n1" "d2").chartRefs = sampleState2.chartRefs ∧
    [(Role.user, "hello")] = projectHistory sampleState2.messages ∧
    (clearChat (handleFileUpload sampleState2 "f.csv" "h\n1" "d2")).messages = [] ∧
    (clearChat (handleFileUpload sampleState2 "f.csv" "h\n1" "d2")).chartRefs = [] :=
  claim10_upload_frame sampleState2 "f.csv" "h\n1" "d2" Option.none 9 "next"
    [(Role.user, "hello")] (by decide)
